import Mathlib

/-
Verification of the jotai-minidb store engine: a client-side, versioned,
cross-tab-synchronized key-value store with reactive bindings.

The library implementation file (src/lib/jotai-minidb.ts) is not present in
the repository snapshot; only its test suite (src/lib/jotai-minidb.test.ts)
and a caller (src/Showcase.tsx) are. The engine is therefore modelled from
the specification (spec.md), faithful to its words, and checked for
consistency with the observable behaviour asserted by the test suite
(raw persisted values at version 0, ascending migration order, broadcast
delivery to same-name siblings only, etc.).
-/

namespace JotaiMiniDb

variable {V : Type} {A B : Type}

/-- Initialization status of one store instance: created pending at
construction, resolved once load plus migration completes, rejected when the
backend is unreachable or a migration throws. -/
inductive InitStatus where
  | pending
  | resolved
  | rejected
deriving DecidableEq, Repr

/-- Modelled from the spec: the physical shape of one persisted record in the
durable backend (the library implementation file src/lib/jotai-minidb.ts is
missing from the sources). A stored record is either the raw application
value, when no version tag is needed, or a tagged wrapper carrying the
version the value was last migrated to. -/
inductive StoredValue (V : Type) where
  | raw (v : V)
  | wrapped (version : Nat) (v : V)
deriving DecidableEq, Repr

/-- Modelled from the spec: extract the stored version, defaulting to 0 for
an untagged record. -/
def StoredValue.storedVersion : StoredValue V → Nat
  | .raw _ => 0
  | .wrapped n _ => n

/-- The application-shape value carried by a stored record. -/
def StoredValue.data : StoredValue V → V
  | .raw v => v
  | .wrapped _ v => v

/-- Modelled from the spec: tag a value with a version for persistence. The
stored shape is the raw application value when no version tag is needed
(version 0, matching the untagged default), and a tagged wrapper otherwise. -/
def tagValue (version : Nat) (v : V) : StoredValue V :=
  if version = 0 then .raw v else .wrapped version v

/-- An in-memory mirror or a named backend store: an association list from
string keys to values, in insertion order. -/
abbrev Mirror (V : Type) := List (String × V)

/-- Modelled from the spec: write a value for a key into a mirror. An
existing key is overwritten in place; a new key is appended. -/
def setKey : Mirror V → String → V → Mirror V
  | [], k, v => [(k, v)]
  | p :: rest, k, v => if p.1 = k then (k, v) :: rest else p :: setKey rest k v

/-- Modelled from the spec: remove a key from a mirror. -/
def deleteKey (m : Mirror V) (k : String) : Mirror V :=
  m.filter (fun p => p.1 ≠ k)

/-- Look up the current value for a key in a mirror. -/
def getKey (m : Mirror V) (k : String) : Option V :=
  (m.find? (fun p => p.1 == k)).map Prod.snd

/-- The keys of a mirror, in order. -/
def keysOf (m : Mirror V) : List String := m.map Prod.fst

/-- The values of a mirror, in order. -/
def valuesOf (m : Mirror V) : List V := m.map Prod.snd

/-- Modelled from the spec: a migration chain, an ordered mapping from
target-version integer to transform function (asynchronous transforms are
awaited on the single-threaded event loop, so each is modelled as a plain
function on values). -/
abbrev Migrations (V : Type) := Nat → Option (V → V)

/-- Apply the transform registered for one version, skipping a version gap. -/
def stepVersion (mig : Migrations V) (v : V) (n : Nat) : V :=
  match mig n with
  | some f => f v
  | none => v

/-- Modelled from the spec (Migration Engine, spec section 4.1): given one
persisted record's raw stored form, the migration chain and the target
version, produce the migrated stored form and a flag saying whether a
write-back is needed. A record at or above the target version is returned
unchanged with no write-back; otherwise the transforms for versions from
storedVersion + 1 up to the target version are applied in ascending order and
the version marker is set to the target version. -/
def migrate (mig : Migrations V) (targetVersion : Nat) (s : StoredValue V) :
    StoredValue V × Bool :=
  if targetVersion ≤ s.storedVersion then (s, false)
  else
    (tagValue targetVersion
      ((List.range' (s.storedVersion + 1) (targetVersion - s.storedVersion)).foldl
        (stepVersion mig) s.data),
     true)

/-- Modelled from the spec: construction configuration of one instance —
store name, target schema version, migration chain. -/
structure Config (V : Type) where
  name : String
  version : Nat
  migrations : Migrations V

/-- Modelled from the spec (Instance State Store): one constructed handle to
a named store, holding its configuration, its in-memory mirror and its
initialization status. -/
structure Instance (V : Type) where
  config : Config V
  cache : Mirror V
  status : InitStatus

/-- Modelled from the spec: broadcast message payload, carrying the kind, the
store name and the key/value as needed. -/
inductive Message (V : Type) where
  | setMsg (storeName key : String) (value : V)
  | deleteMsg (storeName key : String)
  | clearMsg (storeName : String)

/-- The store name a broadcast message is addressed to. -/
def Message.storeName : Message V → String
  | .setMsg n _ _ => n
  | .deleteMsg n _ => n
  | .clearMsg n => n

/-- Modelled from the spec (incoming broadcast handling): a resolved instance
whose store name matches the message applies the mutation directly to its
local mirror, without re-invoking migration and without persisting; any other
instance ignores the message. -/
def Instance.handle (inst : Instance V) (msg : Message V) : Instance V :=
  if inst.status = .resolved ∧ msg.storeName = inst.config.name then
    match msg with
    | .setMsg _ k v => { inst with cache := setKey inst.cache k v }
    | .deleteMsg _ k => { inst with cache := deleteKey inst.cache k }
    | .clearMsg _ => { inst with cache := [] }
  else inst

/-- The whole browsing context: a family of instances (indexed by an
arbitrary instance identifier) and the durable backends, one association
list of stored records per store name. -/
@[ext]
structure World (V : Type) where
  inst : Nat → Instance V
  backends : String → Mirror (StoredValue V)

/-- Modelled from the spec: instance i performs set(key, value). The value is
written into the sender's mirror immediately, persisted to the durable
backend for the sender's store name tagged with the configured target
version, and a set event is broadcast to every other instance. -/
def World.doSet (w : World V) (i : Nat) (k : String) (v : V) : World V :=
  let sender := w.inst i
  let nm := sender.config.name
  { inst := fun j =>
      if j = i then { sender with cache := setKey sender.cache k v }
      else (w.inst j).handle (.setMsg nm k v),
    backends := fun n =>
      if n = nm then setKey (w.backends n) k (tagValue sender.config.version v)
      else w.backends n }

/-- Modelled from the spec: instance i performs delete(key). The key is
removed from the sender's mirror, deleted from the durable backend, and a
delete event is broadcast to every other instance. -/
def World.doDelete (w : World V) (i : Nat) (k : String) : World V :=
  let sender := w.inst i
  let nm := sender.config.name
  { inst := fun j =>
      if j = i then { sender with cache := deleteKey sender.cache k }
      else (w.inst j).handle (.deleteMsg nm k),
    backends := fun n =>
      if n = nm then deleteKey (w.backends n) k
      else w.backends n }

/-- A public mutating operation on one instance. -/
inductive Op (V : Type) where
  | setOp (key : String) (value : V)
  | deleteOp (key : String)

/-- Perform one operation through instance i. -/
def World.doOp (w : World V) (i : Nat) : Op V → World V
  | .setOp k v => w.doSet i k v
  | .deleteOp k => w.doDelete i k

/-- Perform a finite sequence of operations through instance i. -/
def World.run (w : World V) (i : Nat) (ops : List (Op V)) : World V :=
  ops.foldl (fun w' op => w'.doOp i op) w

/-- The effect of one operation on a bare mirror (the reference fold). -/
def applyOp (m : Mirror V) : Op V → Mirror V
  | .setOp k v => setKey m k v
  | .deleteOp k => deleteKey m k

/-- Modelled from the spec (initialization protocol): instance i is
(re-)initialized with a configuration. Every record of the backend for the
configured store name is loaded and run through the migration engine; the
migrated application values populate the mirror, records needing write-back
are persisted, and the status becomes resolved. -/
def World.initNew (w : World V) (i : Nat) (cfg : Config V) : World V :=
  let records := w.backends cfg.name
  { inst := fun j =>
      if j = i then
        { config := cfg,
          cache := records.map
            (fun p => (p.1, (migrate cfg.migrations cfg.version p.2).1.data)),
          status := .resolved }
      else w.inst j,
    backends := fun n =>
      if n = cfg.name then
        records.map (fun p => (p.1, (migrate cfg.migrations cfg.version p.2).1))
      else w.backends n }

/-- Reactive cell for all entries: derived from the mirror. -/
def Instance.entriesCell (inst : Instance V) : List (String × V) := inst.cache

/-- Reactive cell for all keys: derived from the mirror. -/
def Instance.keysCell (inst : Instance V) : List String := keysOf inst.cache

/-- Reactive cell for all values: derived from the mirror. -/
def Instance.valuesCell (inst : Instance V) : List V := valuesOf inst.cache

/-- get(key): reads the mirror directly, absent if the key is unknown. -/
def Instance.getVal (inst : Instance V) (k : String) : Option V :=
  getKey inst.cache k

/-- Modelled from the spec: the read side of the per-key cell item(key) —
its value tracks that key's current state in the mirror. -/
def Instance.itemRead (inst : Instance V) (k : String) : Option V :=
  getKey inst.cache k

/-- Modelled from the spec: the write side of the per-key cell item(key) —
writing through it delegates to set(key, value). -/
def World.itemWrite (w : World V) (i : Nat) (k : String) (v : V) : World V :=
  w.doSet i k v

/-- A two-step migration chain, registering f1 at version 1 and f2 at
version 2 (the shape of the chain in the spec's migration scenarios). -/
def chain2 (f1 f2 : V → V) : Migrations V :=
  fun n => if n = 1 then some f1 else if n = 2 then some f2 else none

/-- The record shape of the migration scenario in the test suite: a name
field and an optional extra value field. -/
structure Rec where
  name : String
  value : Option String
deriving DecidableEq, Repr

/-- Version-1 transform of the scenario: adds the extra value field. -/
def recF1 (r : Rec) : Rec := { r with value := some "other prop" }

/-- Version-2 transform of the scenario: appends to the name (asynchronous in
the test, awaited on the event loop). -/
def recF2 (r : Rec) : Rec := { r with name := r.name ++ " migrated" }

/-- A concrete version-0 configuration for the store named db. -/
def exConfig : Config String :=
  { name := "db", version := 0, migrations := fun _ => none }

/-- A concrete resolved instance of the store named db with an empty mirror. -/
def exInstance : Instance String :=
  { config := exConfig, cache := [], status := .resolved }

/-- A concrete resolved instance of a store named b. -/
def exInstB : Instance String :=
  { config := { name := "b", version := 0, migrations := fun _ => none },
    cache := [], status := .resolved }

/-- A world whose instances all share the store named db, with empty
backends. -/
def exWorld : World String :=
  { inst := fun _ => exInstance, backends := fun _ => [] }

/-- A world where instance 0 uses store db and every other instance uses
store b. -/
def exWorld2 : World String :=
  { inst := fun j => if j = 0 then exInstance else exInstB,
    backends := fun _ => [] }

/-- A concrete operation sequence: two writes to the same key. -/
def exOps : List (Op String) := [.setOp "a" "1", .setOp "a" "2"]

/-- A concrete migration chain on strings for evaluating the engine. -/
def exChain : Migrations String := chain2 (fun s => s ++ "a") (fun s => s ++ "b")

/-- The scenario configuration: store mydb at target version 2 with the
two-step record chain. -/
def exMigConfig : Config Rec := { name := "mydb", version := 2, migrations := chain2 recF1 recF2 }

/-- A world whose backend for store mydb holds one untagged record at
version 0, as left by a version-0 instance's set. -/
def exMigWorld : World Rec :=
  { inst := fun _ =>
      { config := { name := "mydb", version := 0, migrations := fun _ => none },
        cache := [("123", { name := "hello", value := none })],
        status := .resolved },
    backends := fun n =>
      if n = "mydb" then [("123", .raw { name := "hello", value := none })] else [] }

/-! ### Mirror lemmas -/

@[simp]
theorem getKey_nil (k : String) : getKey ([] : Mirror V) k = none := rfl

theorem getKey_cons (p : String × V) (m : Mirror V) (k : String) :
    getKey (p :: m) k = if p.1 = k then some p.2 else getKey m k := by
  by_cases h : p.1 = k <;> simp [getKey, List.find?_cons, h]

@[simp]
theorem getKey_setKey_self (m : Mirror V) (k : String) (v : V) :
    getKey (setKey m k v) k = some v := by
  induction m with
  | nil => simp [setKey, getKey_cons]
  | cons p rest ih =>
    by_cases h : p.1 = k
    · simp [setKey, h, getKey_cons]
    · simp [setKey, h, getKey_cons, ih]

theorem getKey_setKey_other (m : Mirror V) (k k' : String) (v : V) (h : k' ≠ k) :
    getKey (setKey m k v) k' = getKey m k' := by
  induction m with
  | nil => simp [setKey, getKey_cons, Ne.symm h]
  | cons p rest ih =>
    by_cases hp : p.1 = k
    · simp [setKey, hp, getKey_cons, Ne.symm h, hp ▸ (Ne.symm h)]
    · simp [setKey, hp, getKey_cons, ih]

@[simp]
theorem getKey_deleteKey_self (m : Mirror V) (k : String) :
    getKey (deleteKey m k) k = none := by
  induction m with
  | nil => simp [deleteKey]
  | cons p rest ih =>
    by_cases h : p.1 = k
    · simpa [deleteKey, h] using ih
    · simpa [deleteKey, h, getKey_cons] using ih

theorem deleteKey_cons_hit (p : String × V) (rest : Mirror V) (k : String)
    (h : p.1 = k) : deleteKey (p :: rest) k = deleteKey rest k := by
  simp [deleteKey, h]

theorem deleteKey_cons_miss (p : String × V) (rest : Mirror V) (k : String)
    (h : p.1 ≠ k) : deleteKey (p :: rest) k = p :: deleteKey rest k := by
  simp [deleteKey, h]

theorem getKey_deleteKey_other (m : Mirror V) (k k' : String) (h : k' ≠ k) :
    getKey (deleteKey m k) k' = getKey m k' := by
  induction m with
  | nil => simp [deleteKey]
  | cons p rest ih =>
    by_cases hp : p.1 = k
    · rw [deleteKey_cons_hit p rest k hp, ih, getKey_cons,
        if_neg (by rw [hp]; exact Ne.symm h)]
    · rw [deleteKey_cons_miss p rest k hp, getKey_cons, getKey_cons, ih]

theorem getKey_mapSnd (g : A → B) (m : Mirror A) (k : String) :
    getKey (m.map (fun p => (p.1, g p.2))) k = (getKey m k).map g := by
  induction m with
  | nil => simp
  | cons p rest ih =>
    by_cases h : p.1 = k <;> simp [getKey_cons, h, ih]

theorem keysOf_setKey (m : Mirror V) (k : String) (v : V) :
    keysOf (setKey m k v) =
      if k ∈ keysOf m then keysOf m else keysOf m ++ [k] := by
  induction m with
  | nil => simp [setKey, keysOf]
  | cons p rest ih =>
    by_cases h : p.1 = k
    · simp [setKey, h, keysOf]
    · have hsk : setKey (p :: rest) k v = p :: setKey rest k v := by
        simp [setKey, h]
      have hne : k ≠ p.1 := fun e => h e.symm
      by_cases hmem : k ∈ List.map Prod.fst rest
      · rw [hsk]
        simp only [keysOf, List.map_cons] at ih ⊢
        rw [ih, if_pos hmem, if_pos (List.mem_cons_of_mem _ hmem)]
      · rw [hsk]
        simp only [keysOf, List.map_cons] at ih ⊢
        rw [ih, if_neg hmem, if_neg (by simp [hne, hmem]), List.cons_append]

theorem keysOf_deleteKey (m : Mirror V) (k : String) :
    keysOf (deleteKey m k) = (keysOf m).filter (fun x => x ≠ k) := by
  induction m with
  | nil => rfl
  | cons p rest ih =>
    by_cases h : p.1 = k
    · rw [deleteKey_cons_hit p rest k h, ih]
      simp only [keysOf, List.map_cons, List.filter_cons]
      rw [if_neg (by simpa using h)]
    · rw [deleteKey_cons_miss p rest k h]
      simp only [keysOf, List.map_cons, List.filter_cons]
      rw [if_pos (by simpa using h)]
      simp only [keysOf] at ih
      rw [ih]

theorem nodup_keysOf_setKey (m : Mirror V) (k : String) (v : V)
    (h : (keysOf m).Nodup) : (keysOf (setKey m k v)).Nodup := by
  rw [keysOf_setKey]
  by_cases hmem : k ∈ keysOf m
  · simpa [hmem] using h
  · simp [hmem, List.nodup_append, h]

theorem nodup_keysOf_deleteKey (m : Mirror V) (k : String)
    (h : (keysOf m).Nodup) : (keysOf (deleteKey m k)).Nodup := by
  rw [keysOf_deleteKey]
  exact h.filter _

theorem mem_keysOf_setKey_self (m : Mirror V) (k : String) (v : V) :
    k ∈ keysOf (setKey m k v) := by
  rw [keysOf_setKey]
  by_cases hmem : k ∈ keysOf m <;> simp [hmem]

theorem count_keysOf_setKey (m : Mirror V) (k : String) (v : V)
    (h : (keysOf m).Nodup) : (keysOf (setKey m k v)).count k = 1 :=
  List.count_eq_one_of_mem (nodup_keysOf_setKey m k v h)
    (mem_keysOf_setKey_self m k v)

/-! ### Migration engine lemmas -/

@[simp]
theorem storedVersion_tagValue (ver : Nat) (v : V) :
    (tagValue ver v).storedVersion = ver := by
  unfold tagValue
  split <;> simp_all [StoredValue.storedVersion]

@[simp]
theorem data_tagValue (ver : Nat) (v : V) : (tagValue ver v).data = v := by
  unfold tagValue
  split <;> simp [StoredValue.data]

theorem migrate_of_le (mig : Migrations V) (tv : Nat) (s : StoredValue V)
    (h : tv ≤ s.storedVersion) : migrate mig tv s = (s, false) := by
  simp [migrate, h]

theorem migrate_of_lt (mig : Migrations V) (tv : Nat) (s : StoredValue V)
    (h : s.storedVersion < tv) :
    migrate mig tv s =
      (tagValue tv
        ((List.range' (s.storedVersion + 1) (tv - s.storedVersion)).foldl
          (stepVersion mig) s.data),
       true) := by
  rw [migrate, if_neg (Nat.not_le.mpr h)]

theorem storedVersion_migrate (mig : Migrations V) (tv : Nat) (s : StoredValue V) :
    (migrate mig tv s).1.storedVersion = max s.storedVersion tv := by
  by_cases h : tv ≤ s.storedVersion
  · rw [migrate_of_le mig tv s h]
    simp [Nat.max_eq_left h]
  · rw [migrate_of_lt mig tv s (Nat.not_le.mp h)]
    simp only [storedVersion_tagValue]
    omega

theorem migrate_migrate (mig : Migrations V) (tv : Nat) (s : StoredValue V) :
    migrate mig tv (migrate mig tv s).1 = ((migrate mig tv s).1, false) :=
  migrate_of_le _ _ _ (by rw [storedVersion_migrate]; omega)

theorem migrate_compose (mig : Migrations V) (mv tv : Nat) (s : StoredValue V)
    (_h1 : s.storedVersion ≤ mv) (h2 : mv ≤ tv) :
    (migrate mig tv (migrate mig mv s).1).1 = (migrate mig tv s).1 := by
  by_cases hmv : mv ≤ s.storedVersion
  · rw [migrate_of_le mig mv s hmv]
  · have hsv : s.storedVersion < mv := Nat.not_le.mp hmv
    rw [migrate_of_lt mig mv s hsv]
    by_cases htv : tv ≤ mv
    · have hmvtv : mv = tv := le_antisymm h2 htv
      subst hmvtv
      rw [migrate_of_le mig mv _ (by simp), migrate_of_lt mig mv s hsv]
    · have hmt : mv < tv := Nat.not_le.mp htv
      have hsv_tv : s.storedVersion < tv := lt_trans hsv hmt
      rw [migrate_of_lt mig tv _ (by simpa using hmt), migrate_of_lt mig tv s hsv_tv]
      simp only [data_tagValue, storedVersion_tagValue]
      congr 1
      rw [← List.foldl_append]
      have e1 : mv + 1 = s.storedVersion + 1 + (mv - s.storedVersion) := by omega
      have e2 : tv - mv + (mv - s.storedVersion) = tv - s.storedVersion := by omega
      rw [e1, List.range'_append_1, e2]

/-! ### World operation lemmas -/

theorem handle_config (inst : Instance V) (msg : Message V) :
    (inst.handle msg).config = inst.config := by
  cases msg <;> unfold Instance.handle <;> split <;> rfl

theorem handle_status (inst : Instance V) (msg : Message V) :
    (inst.handle msg).status = inst.status := by
  cases msg <;> unfold Instance.handle <;> split <;> rfl

theorem handle_foreign (inst : Instance V) (msg : Message V)
    (h : msg.storeName ≠ inst.config.name) : inst.handle msg = inst := by
  unfold Instance.handle
  rw [if_neg]
  intro hc
  exact h hc.2

theorem handle_setMsg (inst : Instance V) (nm k : String) (v : V)
    (hres : inst.status = .resolved) (hnm : nm = inst.config.name) :
    inst.handle (.setMsg nm k v) = { inst with cache := setKey inst.cache k v } := by
  unfold Instance.handle
  rw [if_pos ⟨hres, hnm⟩]

theorem handle_deleteMsg (inst : Instance V) (nm k : String)
    (hres : inst.status = .resolved) (hnm : nm = inst.config.name) :
    inst.handle (.deleteMsg nm k) = { inst with cache := deleteKey inst.cache k } := by
  unfold Instance.handle
  rw [if_pos ⟨hres, hnm⟩]

theorem inst_doSet_self (w : World V) (i : Nat) (k : String) (v : V) :
    (w.doSet i k v).inst i = { w.inst i with cache := setKey (w.inst i).cache k v } := by
  simp [World.doSet]

theorem inst_doSet_other (w : World V) (i j : Nat) (k : String) (v : V) (h : j ≠ i) :
    (w.doSet i k v).inst j = (w.inst j).handle (.setMsg (w.inst i).config.name k v) := by
  simp [World.doSet, h]

theorem backends_doSet (w : World V) (i : Nat) (k : String) (v : V) (n : String) :
    (w.doSet i k v).backends n =
      if n = (w.inst i).config.name
      then setKey (w.backends n) k (tagValue (w.inst i).config.version v)
      else w.backends n := rfl

theorem inst_doDelete_self (w : World V) (i : Nat) (k : String) :
    (w.doDelete i k).inst i = { w.inst i with cache := deleteKey (w.inst i).cache k } := by
  simp [World.doDelete]

theorem inst_doDelete_other (w : World V) (i j : Nat) (k : String) (h : j ≠ i) :
    (w.doDelete i k).inst j = (w.inst j).handle (.deleteMsg (w.inst i).config.name k) := by
  simp [World.doDelete, h]

theorem backends_doDelete (w : World V) (i : Nat) (k : String) (n : String) :
    (w.doDelete i k).backends n =
      if n = (w.inst i).config.name
      then deleteKey (w.backends n) k
      else w.backends n := rfl

theorem cache_doOp_self (w : World V) (i : Nat) (op : Op V) :
    ((w.doOp i op).inst i).cache = applyOp ((w.inst i).cache) op := by
  cases op <;> simp [World.doOp, World.doSet, World.doDelete, applyOp]

theorem config_doOp_self (w : World V) (i : Nat) (op : Op V) :
    ((w.doOp i op).inst i).config = (w.inst i).config := by
  cases op <;> simp [World.doOp, World.doSet, World.doDelete]

theorem run_cons (w : World V) (i : Nat) (op : Op V) (ops : List (Op V)) :
    w.run i (op :: ops) = (w.doOp i op).run i ops := rfl

theorem cache_run_self (w : World V) (i : Nat) (ops : List (Op V)) :
    ((w.run i ops).inst i).cache = ops.foldl applyOp ((w.inst i).cache) := by
  induction ops generalizing w with
  | nil => rfl
  | cons op ops ih =>
    rw [run_cons, ih, cache_doOp_self, List.foldl_cons]

theorem nodup_applyOp (m : Mirror V) (op : Op V) (h : (keysOf m).Nodup) :
    (keysOf (applyOp m op)).Nodup := by
  cases op with
  | setOp k v => exact nodup_keysOf_setKey _ _ _ h
  | deleteOp k => exact nodup_keysOf_deleteKey _ _ h

theorem nodup_foldl_applyOp (ops : List (Op V)) (m : Mirror V)
    (h : (keysOf m).Nodup) : (keysOf (ops.foldl applyOp m)).Nodup := by
  induction ops generalizing m with
  | nil => exact h
  | cons op ops ih => exact ih _ (nodup_applyOp m op h)

theorem doOp_inst_frame (w : World V) (i j : Nat) (op : Op V)
    (h : (w.inst j).config.name ≠ (w.inst i).config.name) :
    (w.doOp i op).inst j = w.inst j := by
  have hj : j ≠ i := fun e => h (by rw [e])
  cases op with
  | setOp k v =>
    rw [show w.doOp i (.setOp k v) = w.doSet i k v from rfl,
      inst_doSet_other w i j k v hj, handle_foreign]
    exact fun e => h e.symm
  | deleteOp k =>
    rw [show w.doOp i (.deleteOp k) = w.doDelete i k from rfl,
      inst_doDelete_other w i j k hj, handle_foreign]
    exact fun e => h e.symm

theorem doOp_backends_frame (w : World V) (i : Nat) (op : Op V) (n : String)
    (h : n ≠ (w.inst i).config.name) :
    (w.doOp i op).backends n = w.backends n := by
  cases op <;> simp [World.doOp, World.doSet, World.doDelete, h]

theorem run_inst_frame (w : World V) (i j : Nat) (ops : List (Op V))
    (h : (w.inst j).config.name ≠ (w.inst i).config.name) :
    (w.run i ops).inst j = w.inst j := by
  induction ops generalizing w with
  | nil => rfl
  | cons op ops ih =>
    have h' : ((w.doOp i op).inst j).config.name ≠ ((w.doOp i op).inst i).config.name := by
      rw [doOp_inst_frame w i j op h, config_doOp_self]
      exact h
    rw [run_cons, ih _ h', doOp_inst_frame w i j op h]

theorem run_backends_frame (w : World V) (i : Nat) (ops : List (Op V)) (n : String)
    (h : n ≠ (w.inst i).config.name) :
    (w.run i ops).backends n = w.backends n := by
  induction ops generalizing w with
  | nil => rfl
  | cons op ops ih =>
    have h' : n ≠ ((w.doOp i op).inst i).config.name := by
      rw [config_doOp_self]
      exact h
    rw [run_cons, ih _ h', doOp_backends_frame w i op n h]

/-! ### Initialization lemmas -/

theorem backends_initNew (w : World V) (i : Nat) (cfg : Config V) (n : String) :
    (w.initNew i cfg).backends n =
      if n = cfg.name
      then (w.backends cfg.name).map
        (fun p => (p.1, (migrate cfg.migrations cfg.version p.2).1))
      else w.backends n := rfl

theorem inst_initNew_self (w : World V) (i : Nat) (cfg : Config V) :
    (w.initNew i cfg).inst i =
      { config := cfg,
        cache := (w.backends cfg.name).map
          (fun p => (p.1, (migrate cfg.migrations cfg.version p.2).1.data)),
        status := .resolved } := by
  simp [World.initNew]

theorem inst_initNew_other (w : World V) (i j : Nat) (cfg : Config V) (h : j ≠ i) :
    (w.initNew i cfg).inst j = w.inst j := by
  simp [World.initNew, h]

theorem initNew_idem (w : World V) (i : Nat) (cfg : Config V) :
    (w.initNew i cfg).initNew i cfg = w.initNew i cfg := by
  have hmapf : ∀ l : Mirror (StoredValue V),
      (l.map (fun p => (p.1, (migrate cfg.migrations cfg.version p.2).1))).map
        (fun p => (p.1, (migrate cfg.migrations cfg.version p.2).1)) =
      l.map (fun p => (p.1, (migrate cfg.migrations cfg.version p.2).1)) := by
    intro l
    rw [List.map_map]
    congr 1
    funext p
    simp [Function.comp, migrate_migrate]
  have hmapg : ∀ l : Mirror (StoredValue V),
      (l.map (fun p => (p.1, (migrate cfg.migrations cfg.version p.2).1))).map
        (fun p => (p.1, (migrate cfg.migrations cfg.version p.2).1.data)) =
      l.map (fun p => (p.1, (migrate cfg.migrations cfg.version p.2).1.data)) := by
    intro l
    rw [List.map_map]
    congr 1
    funext p
    simp [Function.comp, migrate_migrate]
  apply World.ext
  · funext j
    by_cases hj : j = i
    · subst hj
      rw [inst_initNew_self, inst_initNew_self, backends_initNew, if_pos rfl, hmapg]
    · rw [inst_initNew_other _ _ _ _ hj, inst_initNew_other _ _ _ _ hj]
  · funext n
    by_cases hn : n = cfg.name
    · subst hn
      rw [backends_initNew, if_pos rfl, backends_initNew, if_pos rfl]
      exact hmapf _
    · rw [backends_initNew, if_neg hn, backends_initNew, if_neg hn]

/-! ### Claim theorems -/

/-- C1: for two instances A (index i) and B (index j) constructed with the
same store name, after A performs set(k, v) and B observes the resulting
broadcast set event, B.get(k) equals v — the two mirrors converge on that
key. -/
theorem c1_set_broadcast_converges (w : World V) (i j : Nat) (k : String) (v : V)
    (hij : j ≠ i)
    (hname : (w.inst j).config.name = (w.inst i).config.name)
    (hres : (w.inst j).status = .resolved) :
    ((w.doSet i k v).inst j).getVal k = some v := by
  rw [Instance.getVal, inst_doSet_other w i j k v hij,
    handle_setMsg _ _ _ _ hres hname.symm]
  exact getKey_setKey_self _ _ _

/-- Witness for C1 at a concrete world with two resolved instances of the
store named db. -/
theorem c1_witness :
    (1 ≠ 0) ∧ (exWorld.inst 1).config.name = (exWorld.inst 0).config.name ∧
    (exWorld.inst 1).status = .resolved ∧
    ((exWorld.doSet 0 "id" "v").inst 1).getVal "id" = some "v" :=
  ⟨by decide, rfl, rfl,
    c1_set_broadcast_converges exWorld 0 1 "id" "v" (by decide) rfl rfl⟩

/-- C2: for a record stored at version 0 and the migration chain registering
f1 at version 1 and f2 at version 2 with target version 2, initialization
produces for that record the mirror value f2 (f1 original) — the transforms
applied in ascending version order — and the record's resulting stored
version is 2. -/
theorem c2_migration_chain_composes (w : World V) (i : Nat) (k nm : String)
    (f1 f2 : V → V) (s : StoredValue V) (hs : s.storedVersion = 0)
    (hrec : getKey (w.backends nm) k = some s) :
    ((w.initNew i ⟨nm, 2, chain2 f1 f2⟩).inst i).getVal k = some (f2 (f1 s.data)) ∧
    getKey ((w.initNew i ⟨nm, 2, chain2 f1 f2⟩).backends nm) k =
      some (.wrapped 2 (f2 (f1 s.data))) := by
  have hmig : migrate (chain2 f1 f2) 2 s = (.wrapped 2 (f2 (f1 s.data)), true) := by
    rw [migrate_of_lt _ _ _ (by omega)]
    rw [hs]
    simp [List.range', stepVersion, chain2, tagValue]
  constructor
  · rw [Instance.getVal, inst_initNew_self]
    rw [show (Config.mk nm 2 (chain2 f1 f2)).name = nm from rfl]
    rw [getKey_mapSnd (fun s => (migrate (chain2 f1 f2) 2 s).1.data) (w.backends nm) k,
      hrec]
    simp [hmig, StoredValue.data]
  · rw [backends_initNew, if_pos rfl]
    rw [getKey_mapSnd (fun s => (migrate (chain2 f1 f2) 2 s).1) (w.backends nm) k, hrec]
    simp [hmig]

/-- Witness for C2 on the test scenario: the record named hello at version 0,
migrated through the chain adding an extra field at version 1 and appending
to the name at version 2. -/
theorem c2_witness :
    (StoredValue.raw { name := "hello", value := none } : StoredValue Rec).storedVersion = 0 ∧
    getKey (exMigWorld.backends "mydb") "123" =
      some (.raw { name := "hello", value := none }) ∧
    ((exMigWorld.initNew 0 ⟨"mydb", 2, chain2 recF1 recF2⟩).inst 0).getVal "123" =
      some { name := "hello migrated", value := some "other prop" } ∧
    getKey ((exMigWorld.initNew 0 ⟨"mydb", 2, chain2 recF1 recF2⟩).backends "mydb") "123" =
      some (.wrapped 2 { name := "hello migrated", value := some "other prop" }) :=
  ⟨rfl, rfl,
    (c2_migration_chain_composes exMigWorld 0 "123" "mydb" recF1 recF2
      (.raw { name := "hello", value := none }) rfl rfl).1,
    (c2_migration_chain_composes exMigWorld 0 "123" "mydb" recF1 recF2
      (.raw { name := "hello", value := none }) rfl rfl).2⟩

/-- C3: the migration engine applies exactly the transforms for versions in
the window strictly above the stored version and at most the target version,
in ascending order: a record at or above the target is returned unchanged
with no write-back; migrating an already-migrated record is a no-op; staging
through any intermediate version equals migrating directly; and
re-initializing a store already at the target version with the same chain
leaves every record's value and version unchanged. -/
theorem c3_migration_window (mig : Migrations V) (tv : Nat) :
    (∀ s : StoredValue V, tv ≤ s.storedVersion → migrate mig tv s = (s, false)) ∧
    (∀ s : StoredValue V,
      migrate mig tv (migrate mig tv s).1 = ((migrate mig tv s).1, false)) ∧
    (∀ (s : StoredValue V) (mv : Nat), s.storedVersion ≤ mv → mv ≤ tv →
      (migrate mig tv (migrate mig mv s).1).1 = (migrate mig tv s).1) ∧
    (∀ (w : World V) (i : Nat) (cfg : Config V),
      (w.initNew i cfg).initNew i cfg = w.initNew i cfg) :=
  ⟨migrate_of_le mig tv, migrate_migrate mig tv,
    fun s mv h1 h2 => migrate_compose mig mv tv s h1 h2,
    fun w i cfg => initNew_idem w i cfg⟩

/-- Witness for C3 at concrete records, chains and worlds. -/
theorem c3_witness :
    ((2 : Nat) ≤ (StoredValue.wrapped 3 "x").storedVersion ∧
      migrate exChain 2 (.wrapped 3 "x") = (.wrapped 3 "x", false)) ∧
    migrate exChain 2 (migrate exChain 2 (.raw "x")).1 =
      ((migrate exChain 2 (.raw "x")).1, false) ∧
    ((StoredValue.raw "x").storedVersion ≤ 1 ∧ (1 : Nat) ≤ 2 ∧
      (migrate exChain 2 (migrate exChain 1 (.raw "x")).1).1 =
        (migrate exChain 2 (.raw "x")).1) ∧
    (exMigWorld.initNew 0 exMigConfig).initNew 0 exMigConfig =
      exMigWorld.initNew 0 exMigConfig :=
  ⟨⟨by decide, (c3_migration_window exChain 2).1 _ (by decide)⟩,
    (c3_migration_window exChain 2).2.1 _,
    ⟨by decide, by decide,
      (c3_migration_window exChain 2).2.2.1 _ 1 (by decide) (by decide)⟩,
    (c3_migration_window (V := Rec) exMigConfig.migrations 2).2.2.2 exMigWorld 0 exMigConfig⟩

/-- C4: for every finite sequence of set and delete operations performed on
one instance, the entries cell equals the fold of that sequence over the
starting mirror; keys stay duplicate-free, so repeated set with the same key
keeps exactly one entry for that key (idempotent overwrite). -/
theorem c4_entries_fold (w : World V) (i : Nat) (ops : List (Op V)) :
    ((w.run i ops).inst i).entriesCell = ops.foldl applyOp ((w.inst i).entriesCell) ∧
    ((keysOf ((w.inst i).entriesCell)).Nodup →
      (keysOf (((w.run i ops).inst i).entriesCell)).Nodup) ∧
    ((keysOf ((w.inst i).entriesCell)).Nodup → ∀ k : String,
      (keysOf (((w.run i ops).inst i).entriesCell)).count k ≤ 1) := by
  refine ⟨cache_run_self w i ops, ?_, ?_⟩
  · intro h
    rw [Instance.entriesCell, cache_run_self]
    exact nodup_foldl_applyOp ops _ h
  · intro h k
    rw [Instance.entriesCell, cache_run_self]
    exact List.nodup_iff_count_le_one.mp (nodup_foldl_applyOp ops _ h) k

/-- Witness for C4: two writes to the same key from the empty mirror keep one
entry holding the last value. -/
theorem c4_witness :
    ((exWorld.run 0 exOps).inst 0).entriesCell = exOps.foldl applyOp [] ∧
    (keysOf (((exWorld.run 0 exOps).inst 0).entriesCell)).Nodup ∧
    (keysOf (((exWorld.run 0 exOps).inst 0).entriesCell)).count "a" ≤ 1 ∧
    exOps.foldl applyOp ([] : Mirror String) = [("a", "2")] :=
  ⟨(c4_entries_fold exWorld 0 exOps).1,
    (c4_entries_fold exWorld 0 exOps).2.1 (by decide),
    (c4_entries_fold exWorld 0 exOps).2.2 (by decide) "a",
    by decide⟩

/-- C5: delete(k) removes k from the calling instance's mirror, removes the
record for k from the durable backend, and the broadcast delete event makes
every resolved sibling instance with the same store name remove k from its
own mirror. -/
theorem c5_delete_propagates (w : World V) (i j : Nat) (k : String)
    (hij : j ≠ i)
    (hname : (w.inst j).config.name = (w.inst i).config.name)
    (hres : (w.inst j).status = .resolved) :
    ((w.doDelete i k).inst i).getVal k = none ∧
    getKey ((w.doDelete i k).backends ((w.inst i).config.name)) k = none ∧
    ((w.doDelete i k).inst j).getVal k = none ∧
    ((w.doDelete i k).inst j).cache = deleteKey ((w.inst j).cache) k := by
  refine ⟨?_, ?_, ?_, ?_⟩
  · rw [Instance.getVal, inst_doDelete_self]
    exact getKey_deleteKey_self _ _
  · rw [backends_doDelete, if_pos rfl]
    exact getKey_deleteKey_self _ _
  · rw [Instance.getVal, inst_doDelete_other w i j k hij,
      handle_deleteMsg _ _ _ hres hname.symm]
    exact getKey_deleteKey_self _ _
  · rw [inst_doDelete_other w i j k hij, handle_deleteMsg _ _ _ hres hname.symm]

/-- Witness for C5 on the delete-propagation scenario: A sets id to v, B
observes the entry, A deletes id, and A's mirror, the backend and B's mirror
all end without the key. -/
theorem c5_witness :
    ((exWorld.doSet 0 "id" "v").inst 1).entriesCell = [("id", "v")] ∧
    (1 ≠ 0) ∧
    (((exWorld.doSet 0 "id" "v").inst 1).config.name =
      ((exWorld.doSet 0 "id" "v").inst 0).config.name) ∧
    ((exWorld.doSet 0 "id" "v").inst 1).status = .resolved ∧
    (((exWorld.doSet 0 "id" "v").doDelete 0 "id").inst 0).getVal "id" = none ∧
    getKey (((exWorld.doSet 0 "id" "v").doDelete 0 "id").backends "db") "id" = none ∧
    (((exWorld.doSet 0 "id" "v").doDelete 0 "id").inst 1).getVal "id" = none ∧
    (((exWorld.doSet 0 "id" "v").doDelete 0 "id").inst 1).entriesCell = [] :=
  ⟨rfl, by decide, rfl, rfl,
    (c5_delete_propagates (exWorld.doSet 0 "id" "v") 0 1 "id" (by decide) rfl rfl).1,
    (c5_delete_propagates (exWorld.doSet 0 "id" "v") 0 1 "id" (by decide) rfl rfl).2.1,
    (c5_delete_propagates (exWorld.doSet 0 "id" "v") 0 1 "id" (by decide) rfl rfl).2.2.1,
    by decide⟩

/-- C6: instances constructed with different store names are fully isolated —
any finite sequence of set and delete operations on instance i leaves
instance j (hence its keys, values, entries and get results) unchanged, and
leaves the backend of every other store name unchanged. -/
theorem c6_isolation (w : World V) (i j : Nat) (ops : List (Op V))
    (hname : (w.inst j).config.name ≠ (w.inst i).config.name) :
    (w.run i ops).inst j = w.inst j ∧
    ∀ n : String, n ≠ (w.inst i).config.name → (w.run i ops).backends n = w.backends n :=
  ⟨run_inst_frame w i j ops hname, fun n hn => run_backends_frame w i ops n hn⟩

/-- Witness for C6: operations on the db-named instance 0 leave the b-named
instance 1 and the backend of store b untouched. -/
theorem c6_witness :
    (exWorld2.inst 1).config.name ≠ (exWorld2.inst 0).config.name ∧
    (exWorld2.run 0 exOps).inst 1 = exWorld2.inst 1 ∧
    ("b" ≠ (exWorld2.inst 0).config.name ∧
      (exWorld2.run 0 exOps).backends "b" = exWorld2.backends "b") :=
  ⟨by decide,
    (c6_isolation exWorld2 0 1 exOps (by decide)).1,
    ⟨by decide, (c6_isolation exWorld2 0 1 exOps (by decide)).2 "b" (by decide)⟩⟩

/-- C7: set(key, value) persists to the durable backend the value tagged with
the instance's configured target version; in general every persisted shape is
either the raw application value (version 0, when no tag is needed) or a
tagged wrapper carrying the version the value was last migrated to. -/
theorem c7_set_persists_tagged (w : World V) (i : Nat) (k : String) (v : V) :
    getKey ((w.doSet i k v).backends ((w.inst i).config.name)) k =
      some (tagValue ((w.inst i).config.version) v) ∧
    ∀ (ver : Nat) (x : V),
      (tagValue ver x).storedVersion = ver ∧
      (tagValue ver x).data = x ∧
      (ver = 0 → tagValue ver x = .raw x) ∧
      (ver ≠ 0 → tagValue ver x = .wrapped ver x) := by
  constructor
  · rw [backends_doSet, if_pos rfl]
    exact getKey_setKey_self _ _ _
  · intro ver x
    refine ⟨storedVersion_tagValue ver x, data_tagValue ver x, ?_, ?_⟩
    · intro h
      simp [tagValue, h]
    · intro h
      simp [tagValue, h]

/-- Witness for C7: a version-0 instance persists the raw value, and a
nonzero version yields the wrapped record. -/
theorem c7_witness :
    getKey ((exWorld.doSet 0 "id" "v").backends "db") "id" = some (tagValue 0 "v") ∧
    tagValue 0 "v" = (.raw "v" : StoredValue String) ∧
    (tagValue 2 "v").storedVersion = 2 ∧
    tagValue 2 "v" = (.wrapped 2 "v" : StoredValue String) :=
  ⟨(c7_set_persists_tagged exWorld 0 "id" "v").1,
    ((c7_set_persists_tagged exWorld 0 "id" "v").2 0 "v").2.2.1 rfl,
    ((c7_set_persists_tagged exWorld 0 "id" "v").2 2 "v").1,
    ((c7_set_persists_tagged exWorld 0 "id" "v").2 2 "v").2.2.2 (by decide)⟩

/-- C8: a sibling receiving a set broadcast applies the value directly to its
local mirror without re-invoking migration and without writing to the durable
backend: after one set(k, v) by the sender the backend holds exactly one
record for k, the whole backend state is exactly the sender's single write
(independent of any receiver's handling), and broadcast handling never
changes an instance's configuration or status. -/
theorem c8_receive_no_persist (w : World V) (i : Nat) (k : String) (v : V)
    (hnodup : (keysOf (w.backends ((w.inst i).config.name))).Nodup) :
    (keysOf ((w.doSet i k v).backends ((w.inst i).config.name))).count k = 1 ∧
    ((w.doSet i k v).backends = fun n =>
      if n = (w.inst i).config.name
      then setKey (w.backends n) k (tagValue ((w.inst i).config.version) v)
      else w.backends n) ∧
    (∀ (inst : Instance V) (msg : Message V),
      (inst.handle msg).config = inst.config ∧ (inst.handle msg).status = inst.status) ∧
    (∀ j, j ≠ i → (w.inst j).status = .resolved →
      (w.inst j).config.name = (w.inst i).config.name →
      ((w.doSet i k v).inst j).cache = setKey ((w.inst j).cache) k v) := by
  refine ⟨?_, ?_, ?_, ?_⟩
  · rw [backends_doSet, if_pos rfl]
    exact count_keysOf_setKey _ _ _ hnodup
  · funext n
    exact backends_doSet w i k v n
  · intro inst msg
    exact ⟨handle_config inst msg, handle_status inst msg⟩
  · intro j hj hres hnm
    rw [inst_doSet_other w i j k v hj, handle_setMsg _ _ _ _ hres hnm.symm]

/-- Witness for C8 at the concrete two-instance world with an empty, hence
duplicate-free, backend. -/
theorem c8_witness :
    (keysOf (exWorld.backends "db")).Nodup ∧
    (keysOf ((exWorld.doSet 0 "id" "v").backends "db")).count "id" = 1 ∧
    ((exWorld.doSet 0 "id" "v").backends = fun n =>
      if n = "db" then setKey (exWorld.backends n) "id" (tagValue 0 "v")
      else exWorld.backends n) ∧
    ((exInstance.handle (.setMsg "db" "id" "v")).config = exInstance.config ∧
      (exInstance.handle (.setMsg "db" "id" "v")).status = exInstance.status) ∧
    ((exWorld.doSet 0 "id" "v").inst 1).cache = setKey ((exWorld.inst 1).cache) "id" "v" :=
  ⟨by decide,
    (c8_receive_no_persist exWorld 0 "id" "v" (by decide)).1,
    (c8_receive_no_persist exWorld 0 "id" "v" (by decide)).2.1,
    (c8_receive_no_persist exWorld 0 "id" "v" (by decide)).2.2.1 exInstance (.setMsg "db" "id" "v"),
    (c8_receive_no_persist exWorld 0 "id" "v" (by decide)).2.2.2 1 (by decide) rfl rfl⟩

/-- C9: writing value v for key k through the per-key cell item(k) is the
same operation as set(k, v) — the mirror, the durable backend and every
sibling end in the same state — and the item(k) cell's read value tracks k's
current state in the mirror: v after the write (also on a resolved same-name
sibling), absent after delete(k). -/
theorem c9_item_cell (w : World V) (i j : Nat) (k : String) (v : V)
    (hij : j ≠ i)
    (hname : (w.inst j).config.name = (w.inst i).config.name)
    (hres : (w.inst j).status = .resolved) :
    w.itemWrite i k v = w.doSet i k v ∧
    (∀ inst : Instance V, inst.itemRead k = getKey inst.cache k) ∧
    ((w.itemWrite i k v).inst i).itemRead k = some v ∧
    ((w.itemWrite i k v).inst j).itemRead k = some v ∧
    ((w.doDelete i k).inst i).itemRead k = none := by
  refine ⟨rfl, fun _ => rfl, ?_, ?_, ?_⟩
  · rw [World.itemWrite, Instance.itemRead, inst_doSet_self]
    exact getKey_setKey_self _ _ _
  · rw [World.itemWrite, Instance.itemRead, inst_doSet_other w i j k v hij,
      handle_setMsg _ _ _ _ hres hname.symm]
    exact getKey_setKey_self _ _ _
  · rw [Instance.itemRead, inst_doDelete_self]
    exact getKey_deleteKey_self _ _

/-- Witness for C9 at the concrete two-instance world. -/
theorem c9_witness :
    (1 ≠ 0) ∧ (exWorld.inst 1).config.name = (exWorld.inst 0).config.name ∧
    (exWorld.inst 1).status = .resolved ∧
    exWorld.itemWrite 0 "id" "v" = exWorld.doSet 0 "id" "v" ∧
    ((exWorld.itemWrite 0 "id" "v").inst 0).itemRead "id" = some "v" ∧
    ((exWorld.itemWrite 0 "id" "v").inst 1).itemRead "id" = some "v" ∧
    ((exWorld.doDelete 0 "id").inst 0).itemRead "id" = none :=
  ⟨by decide, rfl, rfl,
    (c9_item_cell exWorld 0 1 "id" "v" (by decide) rfl rfl).1,
    (c9_item_cell exWorld 0 1 "id" "v" (by decide) rfl rfl).2.2.1,
    (c9_item_cell exWorld 0 1 "id" "v" (by decide) rfl rfl).2.2.2.1,
    (c9_item_cell exWorld 0 1 "id" "v" (by decide) rfl rfl).2.2.2.2⟩

/-- C10: at every state reached by a finite operation sequence or by
initialization, and for every instance, the keys cell equals the list of
first components of the entries cell and the values cell equals the list of
second components — the three reactive cells are consistent projections of
the same in-memory mirror. -/
theorem c10_cells_consistent (w : World V) (i : Nat) (ops : List (Op V)) (j : Nat) :
    (((w.run i ops).inst j).keysCell = ((w.run i ops).inst j).entriesCell.map Prod.fst) ∧
    (((w.run i ops).inst j).valuesCell = ((w.run i ops).inst j).entriesCell.map Prod.snd) ∧
    ∀ cfg : Config V,
      (((w.initNew j cfg).inst j).keysCell =
        ((w.initNew j cfg).inst j).entriesCell.map Prod.fst) ∧
      (((w.initNew j cfg).inst j).valuesCell =
        ((w.initNew j cfg).inst j).entriesCell.map Prod.snd) :=
  ⟨rfl, rfl, fun _ => ⟨rfl, rfl⟩⟩

/-- Witness for C10 at a concrete world, operation sequence and
configuration. -/
theorem c10_witness :
    (((exWorld.run 0 exOps).inst 1).keysCell =
      ((exWorld.run 0 exOps).inst 1).entriesCell.map Prod.fst) ∧
    (((exWorld.run 0 exOps).inst 1).valuesCell =
      ((exWorld.run 0 exOps).inst 1).entriesCell.map Prod.snd) ∧
    (((exWorld.initNew 1 exConfig).inst 1).keysCell =
      ((exWorld.initNew 1 exConfig).inst 1).entriesCell.map Prod.fst) :=
  ⟨(c10_cells_consistent exWorld 0 exOps 1).1,
    (c10_cells_consistent exWorld 0 exOps 1).2.1,
    ((c10_cells_consistent exWorld 0 exOps 1).2.2 exConfig).1⟩

end JotaiMiniDb
